import Mathlib

/-!
Verification development for the enrichment-and-rendering pipeline of the
dcgm-exporter fork (files internal/pkg/transformation/hpc.go and
internal/pkg/rendermetrics/render_metrics.go).  Go functions are shallowly
embedded as pure Lean functions: Go maps become association lists, 64-bit
machine integers become Int with explicit wrap-around, fallible operations
return Option or Except, and a fatal log call (process exit) is a dedicated
result constructor.
-/

set_option maxRecDepth 20000

/-! ### String and number helpers mirroring the Go standard library -/

/-- Decimal digit character, as produced by fmt.Sprintf with the %d verb. -/
def digitChar (d : Nat) : Char :=
  match d with
  | 0 => '0' | 1 => '1' | 2 => '2' | 3 => '3' | 4 => '4'
  | 5 => '5' | 6 => '6' | 7 => '7' | 8 => '8' | _ => '9'

/-- Fuel-driven digit expansion; the fuel only bounds the recursion depth and
n + 1 units always suffice since the argument shrinks by a factor of ten per
step. -/
def natDigitsAux : Nat → Nat → List Char
  | 0, _ => []
  | fuel + 1, n =>
    if n < 10 then [digitChar n]
    else natDigitsAux fuel (n / 10) ++ [digitChar (n % 10)]

/-- Decimal digit list of a natural number, most significant digit first. -/
def natDigits (n : Nat) : List Char :=
  natDigitsAux (n + 1) n

/-- Decimal string of a natural number. -/
def natRepr (n : Nat) : String :=
  String.mk (natDigits n)

/-- Model of fmt.Sprintf with the %d verb on a Go int (64-bit value). -/
def goSprintfD (n : Int) : String :=
  if n < 0 then "-" ++ natRepr n.natAbs else natRepr n.natAbs

/-- Model of strings.Contains for a single-character needle, such as
strings.Contains(v, ".") and strings.Contains(job, " ") in hpc.go. -/
def goContainsChar (s : String) (c : Char) : Bool :=
  s.data.contains c

/-- The needle occurs as a contiguous sublist of the haystack. -/
def listIsInfixOf (needle hay : List Char) : Bool :=
  needle.isPrefixOf hay ||
    match hay with
    | [] => false
    | _ :: t => listIsInfixOf needle t

/-- Model of strings.Contains for an arbitrary needle: the needle occurs as a
contiguous substring of the haystack. -/
def goStringContains (hay needle : String) : Bool :=
  listIsInfixOf needle.data hay.data

/-- Split a character list at every occurrence of the separator, keeping empty
fields, exactly as strings.Split with a one-character separator does. -/
def splitChar (sep : Char) : List Char → List (List Char)
  | [] => [[]]
  | c :: cs =>
    match splitChar sep cs with
    | [] => [[]]
    | r :: rs => if c = sep then [] :: r :: rs else (c :: r) :: rs

/-- Model of strings.Split(s, " ") from hpc.go. -/
def goSplitSpace (s : String) : List String :=
  (splitChar ' ' s.data).map String.mk

/-- Value of a digit list read in base 10 (only used under an all-digits
guard). -/
def digitsVal (l : List Char) : Nat :=
  l.foldl (fun a c => a * 10 + (c.toNat - 48)) 0

/-- Nonempty all-digit lists evaluate to their base-10 value; anything else is
a syntax error. -/
def decDigitsVal (l : List Char) : Option Nat :=
  if l ≠ [] ∧ l.all Char.isDigit then some (digitsVal l) else none

/-- Largest Go int64 value. -/
def maxI64 : Int := 2 ^ 63 - 1

/-- Smallest Go int64 value. -/
def minI64 : Int := -(2 ^ 63)

/-- Syntactic reading of strconv.Atoi input: optional sign followed by at
least one decimal digit; none models a strconv syntax error. -/
def goAtoiSyntax (s : String) : Option Int :=
  match s.data with
  | '-' :: r => (decDigitsVal r).map (fun n => -(n : Int))
  | '+' :: r => (decDigitsVal r).map (fun n => (n : Int))
  | r => (decDigitsVal r).map (fun n => (n : Int))

/-- Model of strconv.Atoi with its error ignored, as hpc.go does: a syntax
error yields 0, while an out-of-range value is clamped to the int64 boundary
(strconv.ParseInt returns the boundary value together with a range error). -/
def goAtoi (s : String) : Int :=
  match goAtoiSyntax s with
  | none => 0
  | some v => if v > maxI64 then maxI64 else if v < minI64 then minI64 else v

/-- Wrap-around of Go 64-bit signed integer arithmetic. -/
def wrap64 (n : Int) : Int :=
  (n + 2 ^ 63) % 2 ^ 64 - 2 ^ 63

/-- Model of strconv.ParseUint(s, 10, 32) used by FindMIGUUID: digits only (no
sign), value below 2^32; any error makes the caller halt fatally, so only
success carries a value. -/
def goParseUint32 (s : String) : Option Nat :=
  match decDigitsVal s.data with
  | some n => if n < 2 ^ 32 then some n else none
  | none => none

/-- Model of strconv.ParseFloat restricted to plain decimal literals with an
optional sign and at most one decimal point.  Binary64 rounding, exponent and
hexadecimal forms are abstracted to exact rational arithmetic; no claim in
this development depends on floating-point rounding.  A syntax error yields 0
because hpc.go discards the error. -/
def goParseFloat (s : String) : ℚ :=
  let core : List Char → ℚ := fun l =>
    match splitChar '.' l with
    | [ip, fp] =>
      if (ip ≠ [] ∨ fp ≠ []) ∧ ip.all Char.isDigit ∧ fp.all Char.isDigit then
        (digitsVal ip : ℚ) + (digitsVal fp : ℚ) / (10 : ℚ) ^ fp.length
      else 0
    | [ip] => if ip ≠ [] ∧ ip.all Char.isDigit then (digitsVal ip : ℚ) else 0
    | _ => 0
  match s.data with
  | '-' :: r => -(core r)
  | '+' :: r => core r
  | r => core r

/-- Left-pad a digit string to six characters with zeros. -/
def pad6 (s : String) : String :=
  if s.length < 6 then String.mk (List.replicate (6 - s.length) '0') ++ s else s

/-- Model of fmt.Sprintf with the %f verb (six fractional digits) on the
rational abstraction of a float64. -/
def goFormatFloat (q : ℚ) : String :=
  let n : Nat := (Int.floor (|q| * 1000000 + 1 / 2)).toNat
  (if q < 0 then "-" else "") ++ natRepr (n / 1000000) ++ "." ++ pad6 (natRepr (n % 1000000))

/-! ### Data model -/

/-- Modelled from the spec: the CounterDefinition of the collector package,
which is not under src/; fields are the ones hpc.go and render_metrics.go
read (stable metric name, help, metric kind, optional alternate name and
help, integer multiplier). -/
structure Counter where
  FieldName : String
  Help : String
  PromType : String
  AlterFieldName : String
  AlterHelp : String
  Multiplier : Int
deriving DecidableEq

/-- Modelled from the spec: the Metric sample of the collector package, which
is not under src/; fields are the ones hpc.go and render_metrics.go read.
UUID holds the configured uuid label name (for example "UUID"), GPUUUID the
device UUID itself, AlterUUID the derived alternate identifier.  Go maps for
labels and attributes are modelled as association lists. -/
structure Metric where
  Counter : Counter
  Value : String
  AlterValue : String
  UUID : String
  GPU : String
  GPUUUID : String
  AlterUUID : String
  GPUDevice : String
  GPUPCIBusID : String
  GPUModelName : String
  Hostname : String
  MigProfile : String
  GPUInstanceID : String
  Labels : List (String × String)
  Attributes : List (String × String)
deriving DecidableEq

/-- Modelled from the spec: collector.MetricsByCounter, a map from counter
definition to the ordered samples collected for it.  The Go map is modelled
as an association list in a fixed iteration order. -/
def SampleSet := List (Counter × List Metric)

instance : DecidableEq SampleSet := by
  unfold SampleSet
  infer_instance

/-- Modelled from the spec: the HpcJobAttribute constant of the transformation
package (not under src/); the README shows the label as jobid=... . -/
def HpcJobAttribute : String := "jobid"

/-- Modelled from the spec: the HpcUserAttribute constant of the
transformation package (not under src/); the README shows the label as
userid=... . -/
def HpcUserAttribute : String := "userid"

/-- Go map assignment m[k] = v on an association list: replace the binding if
the key is present, otherwise append a new binding. -/
def setAttr (ats : List (String × String)) (k v : String) : List (String × String) :=
  if ats.any (fun p => p.1 == k) then
    ats.map (fun p => if p.1 == k then (k, v) else p)
  else ats ++ [(k, v)]

/-- Number of bindings an association list holds for a key. -/
def countKey (k : String) (ats : List (String × String)) : Nat :=
  (ats.filter (fun p => p.1 == k)).length

/-- Modelled from the spec: the deviceinfo GPU-instance record (package not
under src/); only the fields FindMIGUUID reads. -/
structure GPUInstance where
  NvmlInstanceId : Nat
  UUID : String
deriving DecidableEq

/-- Modelled from the spec: the deviceinfo per-GPU record (package not under
src/); only the instance list is read. -/
structure GPUInfo where
  GPUInstances : List GPUInstance
deriving DecidableEq

instance : Inhabited GPUInfo := ⟨⟨[]⟩⟩

/-- Modelled from the spec: the deviceinfo.Provider interface (package not
under src/), answering GPUCount and GPUs. -/
structure Provider where
  GPUCount : Nat
  GPUs : List GPUInfo
deriving DecidableEq

/-! ### Enrichment stage (hpcMapper.Process and FindMIGUUID from hpc.go) -/

/-- Result of FindMIGUUID: logrus.Fatalf exits the process, modelled as a
dedicated constructor; otherwise the partition UUID (possibly empty). -/
inductive MigResult where
  | fatal
  | ok (uuid : String)
deriving DecidableEq

/-- Embedding of FindMIGUUID (hpc.go lines 151-173): parse the GPU index as a
32-bit unsigned integer (fatal on error), check it against the provider GPU
count (fatal when too large), parse the MIG instance id (fatal on error),
then return the UUID of the first GPU instance whose NvmlInstanceId matches,
or the empty string (with a warning) when none matches. -/
def FindMIGUUID (sysInfo : Provider) (gpu instanceId : String) : MigResult :=
  match goParseUint32 gpu with
  | none => .fatal
  | some gpuid =>
    if sysInfo.GPUCount ≤ gpuid then .fatal
    else
      match goParseUint32 instanceId with
      | none => .fatal
      | some migid =>
        match (sysInfo.GPUs.getD gpuid default).GPUInstances.find?
            (fun gi => gi.NvmlInstanceId == migid) with
        | some gi => .ok gi.UUID
        | none => .ok ""

/-- Embedding of the AlterValue computation (hpc.go lines 90-100): multiplier
1 copies the value verbatim; otherwise a value containing a decimal point is
parsed as a float, multiplied and formatted with %f, and a value without one
is parsed with Atoi, multiplied with 64-bit wrap-around and formatted
with %d. -/
def scaleValue (mult : Int) (v : String) : String :=
  if mult ≠ 1 then
    if goContainsChar v '.' then goFormatFloat (goParseFloat v * (mult : ℚ))
    else goSprintfD (wrap64 (goAtoi v * mult))
  else v

/-- Embedding of the per-job body of the fan-out loop (hpc.go lines 121-140).
utils.DeepCopy is a gob round-trip and is modelled as the identity copy of
the pure value (its failure branch, which skips the one job association, is
not reachable in the model).  A job line containing a space is split on
single spaces; anything other than exactly two fields is logged and skipped
(none); otherwise both job and user attributes are set.  A line without a
space sets only the job attribute. -/
def applyJob (m : Metric) (job : String) : Option Metric :=
  if goContainsChar job ' ' then
    let parts := goSplitSpace job
    if parts.length ≠ 2 then none
    else
      let ats := setAttr (setAttr m.Attributes HpcJobAttribute (parts.getD 0 "")) HpcUserAttribute (parts.getD 1 "")
      some { m with Attributes := ats }
  else some { m with Attributes := setAttr m.Attributes HpcJobAttribute job }

/-- Device key of a sample (hpc.go lines 101-107): gpu.instance for MIG
samples, the bare GPU index otherwise. -/
def deviceKey (m : Metric) : String :=
  if m.MigProfile ≠ "" then m.GPU ++ "." ++ m.GPUInstanceID else m.GPU

/-- Embedding of the per-sample body of hpcMapper.Process (hpc.go lines
86-143): compute the alternate value, memoize the device UUID in the
pass-scoped cache (resolving MIG UUIDs through FindMIGUUID, whose fatal exit
is propagated as none), set AlterUUID, look up the job list by UUID first and
bare key second, and either fan the sample out per job record or pass it
through.  Returns the updated cache and the samples appended for this
input. -/
def processMetric (jobMap : List (String × List String)) (sysInfo : Provider)
    (cache : List (String × String)) (metric : Metric) :
    Option (List (String × String) × List Metric) :=
  let alter := scaleValue metric.Counter.Multiplier metric.Value
  let gpuID := deviceKey metric
  let cacheR : Option (List (String × String)) :=
    match cache.lookup gpuID with
    | some _ => some cache
    | none =>
      if metric.MigProfile ≠ "" then
        match FindMIGUUID sysInfo metric.GPU metric.GPUInstanceID with
        | .fatal => none
        | .ok uuid => some (cache ++ [(gpuID, uuid)])
      else some (cache ++ [(gpuID, metric.GPUUUID)])
  match cacheR with
  | none => none
  | some cache1 =>
    let uuid := (cache1.lookup gpuID).getD ""
    let m1 := { metric with AlterValue := alter, AlterUUID := uuid }
    let jobsOpt := match jobMap.lookup uuid with
      | some js => some js
      | none => jobMap.lookup gpuID
    match jobsOpt with
    | some js =>
      if js.isEmpty then some (cache1, [m1])
      else some (cache1, js.filterMap (applyJob m1))
    | none => some (cache1, [m1])

/-- Folds processMetric over one counter sequence, threading the UUID cache
and concatenating the outputs in order; none propagates a fatal exit. -/
def processMetrics (jobMap : List (String × List String)) (sysInfo : Provider)
    (cache : List (String × String)) :
    List Metric → Option (List (String × String) × List Metric)
  | [] => some (cache, [])
  | m :: ms =>
    match processMetric jobMap sysInfo cache m with
    | none => none
    | some (cache1, outs) =>
      match processMetrics jobMap sysInfo cache1 ms with
      | none => none
      | some (cache2, rest) => some (cache2, outs ++ rest)

/-- Folds over all counters of the sample set, threading the pass-scoped UUID
cache across counters as hpc.go does (the Go map iteration order is
unspecified; the model fixes the listed order). -/
def processCounters (jobMap : List (String × List String)) (sysInfo : Provider)
    (cache : List (String × String)) : SampleSet → Option SampleSet
  | [] => some []
  | (c, ms) :: rest =>
    match processMetrics jobMap sysInfo cache ms with
    | none => none
    | some (cache1, ms1) =>
      match processCounters jobMap sysInfo cache1 rest with
      | none => none
      | some rest1 => some ((c, ms1) :: rest1)

/-- Contents of one regular job-mapping file after bufio scanning: either the
list of its lines (the scanner strips line terminators and yields empty
strings for blank lines) or a read error. -/
inductive FileRead where
  | readError (e : String)
  | lines (ls : List String)

/-- One directory entry as seen by getGPUFiles: a subdirectory (skipped), an
entry whose file info cannot be read (skipped with a warning), or a regular
file. -/
inductive FileEntry where
  | directory
  | infoError
  | regular (content : FileRead)

/-- State of the job-mapping directory: os.Stat failure, os.ReadDir failure,
or a listing of entries. -/
inductive JobDir where
  | absent
  | listError (e : String)
  | present (entries : List (String × FileEntry))

/-- Embedding of getGPUFiles (hpc.go lines 209-235): keep the regular files
in listed order, skipping directories and entries without file info. -/
def getGPUFiles (entries : List (String × FileEntry)) : List (String × FileRead) :=
  entries.filterMap (fun p =>
    match p.2 with
    | .regular c => some (p.1, c)
    | _ => none)

/-- Go map append gpuToJobMap[k] = append(gpuToJobMap[k], vs...) on an
association list. -/
def mapAppend (m : List (String × List String)) (k : String) (vs : List String) :
    List (String × List String) :=
  if m.any (fun p => p.1 == k) then
    m.map (fun p => if p.1 == k then (p.1, p.2 ++ vs) else p)
  else m ++ [(k, vs)]

/-- Embedding of the file-reading loop of hpcMapper.Process (hpc.go lines
70-80): read every mapping file in order, abort with the first read error,
and accumulate file name to job lines. -/
def buildJobMap (files : List (String × FileRead))
    (acc : List (String × List String)) : Except String (List (String × List String)) :=
  match files with
  | [] => .ok acc
  | (name, c) :: rest =>
    match c with
    | .readError e => .error e
    | .lines jobs => buildJobMap rest (mapAppend acc name jobs)

/-- Overall outcome of hpcMapper.Process: a fatal process exit raised by
FindMIGUUID, or a normal return carrying the returned error (if any) and the
final state of the metrics map. -/
inductive ProcResult where
  | fatal
  | done (err : Option String) (out : SampleSet)

instance : DecidableEq ProcResult := by
  rintro (_ | ⟨e1, o1⟩) (_ | ⟨e2, o2⟩)
  · exact isTrue rfl
  · exact isFalse (by intro h; cases h)
  · exact isFalse (by intro h; cases h)
  · rcases instDecidableEqSampleSet o1 o2 with h | h
    · exact isFalse (by intro hc; cases hc; exact h rfl)
    · rcases decEq e1 e2 with h2 | h2
      · exact isFalse (by intro hc; cases hc; exact h2 rfl)
      · exact isTrue (by rw [h, h2])

/-- Embedding of hpcMapper.Process (hpc.go lines 51-149): a missing directory
is logged and ignored (nil return, metrics untouched); a directory listing
failure or a file read error is returned to the caller with the metrics
untouched; otherwise every counter sequence is replaced by its enriched
sequence, with a FindMIGUUID fatal exit propagated. -/
def hpcProcess (dir : JobDir) (sysInfo : Provider) (metrics : SampleSet) : ProcResult :=
  match dir with
  | .absent => .done none metrics
  | .listError e => .done (some e) metrics
  | .present entries =>
    match buildJobMap (getGPUFiles entries) [] with
    | .error e => .done (some e) metrics
    | .ok jobMap =>
      match processCounters jobMap sysInfo [] metrics with
      | none => .fatal
      | some out => .done none out

/-! ### Renderer (render_metrics.go) -/

/-- Insert a key-value pair into a key-sorted list, keeping it sorted. -/
def insertKV (p : String × String) : List (String × String) → List (String × String)
  | [] => [p]
  | q :: qs => if p.1 ≤ q.1 then p :: q :: qs else q :: insertKV p qs

/-- Sort label or attribute bindings by key, as the text/template range over a
Go map visits keys in sorted order (byte order and code-point order agree on
the ASCII keys used here). -/
def sortKVs (kvs : List (String × String)) : List (String × String) :=
  kvs.foldr insertKV []

/-- Rendering of a label or attribute map inside a metric line of the GPU
template: one comma-separated pair per binding, in sorted key order (the
leading whitespace of the template lines is trimmed away by the minus
markers). -/
def renderKVs (kvs : List (String × String)) : String :=
  String.join ((sortKVs kvs).map (fun p => "," ++ p.1 ++ "=\"" ++ p.2 ++ "\""))

/-- One primary metric line of the gpuMetricsFormat template (render_metrics.go
lines 48-58), including its leading newline; the MIG pair and the hostname
label appear only when the corresponding field is nonempty. -/
def renderMetricLine (c : Counter) (m : Metric) : String :=
  "\n" ++ c.FieldName ++ "\x7bgpu=\"" ++ m.GPU ++ "\"," ++ m.UUID ++ "=\"" ++
    m.AlterUUID ++ "\",pci_bus_id=\"" ++ m.GPUPCIBusID ++ "\",device=\"" ++
    m.GPUDevice ++ "\",modelName=\"" ++ m.GPUModelName ++ "\"" ++
  (if m.MigProfile ≠ "" then
    ",GPU_I_PROFILE=\"" ++ m.MigProfile ++ "\",GPU_I_ID=\"" ++ m.GPUInstanceID ++ "\""
   else "") ++
  (if m.Hostname ≠ "" then ",Hostname=\"" ++ m.Hostname ++ "\"" else "") ++
  renderKVs m.Labels ++ renderKVs m.Attributes ++ "\x7d " ++ m.Value

/-- One alternate metric line of the gpuMetricsFormat template
(render_metrics.go lines 63-73), using the alternate name, the minor_number
and uuid labels, and the alternate value. -/
def renderAltLine (c : Counter) (m : Metric) : String :=
  "\n" ++ c.AlterFieldName ++ "\x7bminor_number=\"" ++ m.GPU ++ "\",uuid=\"" ++
    m.AlterUUID ++ "\",device=\"" ++ m.GPUDevice ++ "\",modelName=\"" ++
    m.GPUModelName ++ "\"" ++
  (if m.MigProfile ≠ "" then
    ",GPU_I_PROFILE=\"" ++ m.MigProfile ++ "\",GPU_I_ID=\"" ++ m.GPUInstanceID ++ "\""
   else "") ++
  (if m.Hostname ≠ "" then ",Hostname=\"" ++ m.Hostname ++ "\"" else "") ++
  renderKVs m.Labels ++ renderKVs m.Attributes ++ "\x7d " ++ m.AlterValue

/-- Output of the gpuMetricsFormat template for one counter: HELP and TYPE
headers, one line per sample, the alternate block when an alternate name is
declared, and the newline the template emits before closing the outer
range. -/
def renderCounterBlock (c : Counter) (ms : List Metric) : String :=
  "# HELP " ++ c.FieldName ++ " " ++ c.Help ++
  "\n# TYPE " ++ c.FieldName ++ " " ++ c.PromType ++
  String.join (ms.map (renderMetricLine c)) ++
  (if c.AlterFieldName ≠ "" then
    "\n# HELP " ++ c.AlterFieldName ++ " " ++ c.AlterHelp ++
    "\n# TYPE " ++ c.AlterFieldName ++ " " ++ c.PromType ++
    String.join (ms.map (renderAltLine c))
   else "") ++ "\n"

/-- Output of the gpuMetricsFormat template over a whole sample set (the Go
template visits map keys in a deterministic sorted order; the model keeps the
listed order, which coincides for the single-counter sets used in the
theorems below). -/
def renderGPUTemplate (metrics : SampleSet) : String :=
  String.join (metrics.map (fun p => renderCounterBlock p.1 p.2))

/-- Initial strJobId buffer of RenderSlurm (render_metrics.go lines 180-182);
the second line of the Go string literal begins with a space. -/
def slurmJobHeader : String :=
  "# HELP nvidia_gpu_jobId JobId number of a job currently using this GPU as reported by Slurm\n # TYPE nvidia_gpu_jobId gauge\n"

/-- Initial strUserId buffer of RenderSlurm (render_metrics.go lines
183-185). -/
def slurmUserHeader : String :=
  "# HELP nvidia_gpu_jobUid Uid number of user running jobs on this GPU\n# TYPE nvidia_gpu_jobUid gauge\n"

/-- The props string RenderSlurm builds for a sample (render_metrics.go line
188): an opening brace and the six identity labels, with no closing brace. -/
def slurmProps (m : Metric) : String :=
  "\x7bminor_number=\"" ++ m.GPU ++ "\",uuid=\"" ++ m.AlterUUID ++ "\",device=\"" ++
    m.GPUDevice ++ "\",modelName=\"" ++ m.GPUModelName ++ "\",GPU_I_PROFILE=\"" ++
    m.MigProfile ++ "\",GPU_I_ID=\"" ++ m.GPUInstanceID ++ "\""

/-- One iteration of the RenderSlurm loop (render_metrics.go lines 187-205)
over the pair of accumulating buffers (strJobId, strUserId): skip the sample
when strJobId already contains its props substring; otherwise, when the job
attribute is nonempty, append a jobId line (and a jobUid line when the user
attribute is also nonempty). -/
def renderSlurmStep (acc : String × String) (m : Metric) : String × String :=
  let props := slurmProps m
  if goStringContains acc.1 props then acc
  else
    let jobid := ((m.Attributes.lookup HpcJobAttribute).getD "")
    let userid := ((m.Attributes.lookup HpcUserAttribute).getD "")
    if jobid ≠ "" then
      if userid ≠ "" then
        let props2 := props ++ ",jobid=\"" ++ jobid ++ "\",userid=\"" ++ userid ++ "\"\x7d "
        (acc.1 ++ "nvidia_gpu_jobId" ++ props2 ++ jobid ++ "\n",
         acc.2 ++ "nvidia_gpu_jobUid" ++ props2 ++ userid ++ "\n")
      else
        let props2 := props ++ ",jobid=\"" ++ jobid ++ "\"\x7d "
        (acc.1 ++ "nvidia_gpu_jobId" ++ props2 ++ jobid ++ "\n", acc.2)
    else acc

/-- Embedding of RenderSlurm (render_metrics.go lines 179-209): fold the step
over every sample of every counter and write strJobId followed by
strUserId. -/
def renderSlurm (metrics : SampleSet) : String :=
  let fin := metrics.foldl (fun acc p => p.2.foldl renderSlurmStep acc)
    (slurmJobHeader, slurmUserHeader)
  fin.1 ++ fin.2

/-- Embedding of RenderGroup for the FE_GPU group (render_metrics.go lines
155-177): execute the GPU template and then append the RenderSlurm output. -/
def renderGroupGPU (metrics : SampleSet) : String :=
  renderGPUTemplate metrics ++ renderSlurm metrics


/-! ### Derived definitions used by the theorems -/

/-- What one well-formed job record does to the sample copy it produces: a
record without a space sets only the job attribute to the whole line; a
record split by single spaces into two fields sets the job attribute to the
first and the user attribute to the second. -/
def jobRecordSpec (j : String) (out : Metric) : Prop :=
  (goContainsChar j ' ' = false →
    out.Attributes.lookup HpcJobAttribute = some j ∧
    out.Attributes.lookup HpcUserAttribute = none) ∧
  (goContainsChar j ' ' = true →
    out.Attributes.lookup HpcJobAttribute = some ((goSplitSpace j).getD 0 "") ∧
    out.Attributes.lookup HpcUserAttribute = some ((goSplitSpace j).getD 1 ""))

/-- Reset the two derived alternate fields of a sample. -/
def stripAlter (m : Metric) : Metric :=
  { m with AlterValue := "", AlterUUID := "" }

/-- Reset the derived alternate fields of every sample of a sample set. -/
def stripSS (s : SampleSet) : SampleSet :=
  (s : List (Counter × List Metric)).map (fun p => (p.1, p.2.map stripAlter))

/-- Example counter: gauge named X with help text help and no alternate. -/
def exCounter : Counter :=
  { FieldName := "X", Help := "help", PromType := "gauge",
    AlterFieldName := "", AlterHelp := "", Multiplier := 1 }

/-- Example standalone-device sample on GPU 0. -/
def exMetric : Metric :=
  { Counter := exCounter, Value := "139", AlterValue := "", UUID := "UUID",
    GPU := "0", GPUUUID := "GPU-abc", AlterUUID := "", GPUDevice := "",
    GPUPCIBusID := "", GPUModelName := "", Hostname := "", MigProfile := "",
    GPUInstanceID := "", Labels := [], Attributes := [] }

/-- Example provider: one GPU with a single MIG instance with nvml id 3. -/
def exProvider : Provider :=
  { GPUCount := 1, GPUs := [{ GPUInstances := [{ NvmlInstanceId := 3, UUID := "MIG-x" }] }] }

/-- First sample of the de-duplication regression pair: its GPU index string
embeds the whole props text of the second sample, so the rendered props of
this sample contain those of the second as a proper substring. -/
def mSlurmA : Metric :=
  { exMetric with
    GPU := "1\",uuid=\"\",device=\"\",modelName=\"\",GPU_I_PROFILE=\"\",GPU_I_ID=\"\"",
    GPUUUID := "", Attributes := [("jobid", "7")] }

/-- Second sample of the de-duplication regression pair: a perfectly ordinary
sample on GPU 1 carrying job 9 and user 5. -/
def mSlurmB : Metric :=
  { exMetric with
    GPU := "1",
    GPUUUID := "",
    Attributes := [("jobid", "9"), ("userid", "5")] }

/-- The enriched base copy processMetric produces for a non-partitioned
sample whose device key is not yet cached: alternate value scaled, alternate
identifier taken from the sample device UUID. -/
def enrichNonMig (m : Metric) : Metric :=
  { m with AlterValue := scaleValue m.Counter.Multiplier m.Value, AlterUUID := m.GPUUUID }

/-! ### Helper lemmas -/

theorem digitChar_ne_dot (d : Nat) : digitChar d ≠ '.' := by
  unfold digitChar
  split <;> decide

theorem natDigitsAux_ne_dot : ∀ fuel n, ∀ c ∈ natDigitsAux fuel n, c ≠ '.' := by
  intro fuel
  induction fuel with
  | zero => intro n c hc; cases hc
  | succ f ih =>
    intro n c hc
    unfold natDigitsAux at hc
    by_cases h : n < 10
    · rw [if_pos h] at hc
      rcases List.mem_singleton.1 hc with rfl
      exact digitChar_ne_dot n
    · rw [if_neg h] at hc
      rcases List.mem_append.1 hc with h1 | h2
      · exact ih (n / 10) c h1
      · rcases List.mem_singleton.1 h2 with rfl
        exact digitChar_ne_dot (n % 10)

theorem natDigits_ne_dot (n : Nat) : ∀ c ∈ natDigits n, c ≠ '.' :=
  natDigitsAux_ne_dot (n + 1) n

theorem contains_eq_false_of_forall {l : List Char} {c : Char}
    (h : ∀ x ∈ l, x ≠ c) : l.contains c = false := by
  induction l with
  | nil => rfl
  | cons a t ih =>
    have ha : (c == a) = false := by
      have := h a (List.mem_cons_self a t)
      exact beq_eq_false_iff_ne.mpr (fun hc => this hc.symm)
    have ht := ih (fun x hx => h x (List.mem_cons_of_mem a hx))
    simp only [List.contains, List.elem] at *
    rw [ha]
    exact ht

theorem string_data_append (s t : String) : (s ++ t).data = s.data ++ t.data := rfl

theorem goSprintfD_no_dot (n : Int) : goContainsChar (goSprintfD n) '.' = false := by
  unfold goSprintfD goContainsChar
  by_cases h : n < 0
  · simp only [if_pos h, string_data_append]
    refine contains_eq_false_of_forall ?_
    intro x hx
    rcases List.mem_append.1 hx with h1 | h2
    · rcases List.mem_singleton.1 h1 with rfl
      decide
    · exact natDigits_ne_dot _ x h2
  · simp only [if_neg h, natRepr]
    exact contains_eq_false_of_forall (natDigits_ne_dot _)

theorem key_not_mem_of_lookup_none {l : List (String × String)} {k : String}
    (h : l.lookup k = none) : ∀ p ∈ l, (p.1 == k) = false := by
  induction l with
  | nil => intro p hp; cases hp
  | cons a t ih =>
    intro p hp
    rcases hka : (k == a.1) with _ | _
    · have ht : List.lookup k t = none := by
        cases a with
        | mk a1 a2 =>
          simp only [List.lookup, hka] at h
          exact h
      rcases hp with _ | hp
      · have : (a.1 == k) = false := by
          refine beq_eq_false_iff_ne.mpr ?_
          intro hc
          rw [hc] at hka
          simp at hka
        exact this
      · exact ih ht p (by assumption)
    · exfalso
      cases a with
      | mk a1 a2 =>
        simp only [List.lookup, hka] at h
        cases h

theorem any_key_false_of_lookup_none {l : List (String × String)} {k : String}
    (h : l.lookup k = none) : l.any (fun p => p.1 == k) = false := by
  rw [List.any_eq_false]
  intro p hp
  rw [key_not_mem_of_lookup_none h p hp]
  decide

theorem lookup_append_of_lookup_none {l r : List (String × String)} {k : String}
    (h : l.lookup k = none) : (l ++ r).lookup k = r.lookup k := by
  induction l with
  | nil => rfl
  | cons a t ih =>
    cases a with
    | mk a1 a2 =>
      rcases hka : (k == a1) with _ | _
      · have ht : List.lookup k t = none := by
          simp only [List.lookup, hka] at h
          exact h
        simp only [List.cons_append, List.lookup, hka]
        exact ih ht
      · exfalso
        simp only [List.lookup, hka] at h
        cases h

theorem setAttr_of_lookup_none {ats : List (String × String)} {k v : String}
    (h : ats.lookup k = none) : setAttr ats k v = ats ++ [(k, v)] := by
  unfold setAttr
  rw [if_neg]
  rw [any_key_false_of_lookup_none h]
  decide

theorem countKey_zero_of_lookup_none {l : List (String × String)} {k : String}
    (h : l.lookup k = none) : countKey k l = 0 := by
  unfold countKey
  rw [List.filter_eq_nil_iff.mpr]
  · rfl
  · intro p hp
    rw [key_not_mem_of_lookup_none h p hp]
    decide

theorem countKey_append (k : String) (l r : List (String × String)) :
    countKey k (l ++ r) = countKey k l + countKey k r := by
  unfold countKey
  rw [List.filter_append, List.length_append]

theorem splitChar_of_not_contains {sep : Char} {l : List Char}
    (h : l.contains sep = false) : splitChar sep l = [l] := by
  induction l with
  | nil => rfl
  | cons c cs ih =>
    have h1 : (sep == c) = false := by
      by_cases hc : sep = c
      · subst hc
        simp [List.contains, List.elem] at h
      · exact beq_eq_false_iff_ne.mpr hc
    have h2 : cs.contains sep = false := by
      simp only [List.contains, List.elem, h1] at h
      exact h
    have hcs : c ≠ sep := by
      intro hc
      rw [hc] at h1
      simp at h1
    unfold splitChar
    rw [ih h2]
    simp [hcs]

theorem goSplitSpace_of_not_contains {s : String} (h : goContainsChar s ' ' = false) :
    goSplitSpace s = [s] := by
  unfold goSplitSpace
  rw [splitChar_of_not_contains h]
  simp only [List.map]

theorem applyJob_two {m : Metric} {j : String}
    (hc : goContainsChar j ' ' = true) (hl : (goSplitSpace j).length = 2) :
    applyJob m j = some { m with Attributes := setAttr (setAttr m.Attributes HpcJobAttribute ((goSplitSpace j).getD 0 "")) HpcUserAttribute ((goSplitSpace j).getD 1 "") } := by
  simp [applyJob, hc, hl]

theorem applyJob_one {m : Metric} {j : String}
    (hc : goContainsChar j ' ' = false) :
    applyJob m j = some { m with Attributes := setAttr m.Attributes HpcJobAttribute j } := by
  simp [applyJob, hc]

theorem applyJob_spec {m : Metric} {j : String}
    (ha : m.Attributes.lookup HpcJobAttribute = none)
    (hb : m.Attributes.lookup HpcUserAttribute = none)
    (hwf : goContainsChar j ' ' = true → (goSplitSpace j).length = 2) :
    ∃ out, applyJob m j = some out ∧
      countKey HpcJobAttribute out.Attributes = 1 ∧
      jobRecordSpec j out ∧
      out.Attributes.lookup HpcJobAttribute ≠ none := by
  by_cases hc : goContainsChar j ' ' = true
  · have hl := hwf hc
    have h1 : setAttr m.Attributes HpcJobAttribute ((goSplitSpace j).getD 0 "")
        = m.Attributes ++ [(HpcJobAttribute, (goSplitSpace j).getD 0 "")] :=
      setAttr_of_lookup_none ha
    have h2 : (m.Attributes ++ [(HpcJobAttribute, (goSplitSpace j).getD 0 "")]).lookup
        HpcUserAttribute = none := by
      rw [lookup_append_of_lookup_none hb]
      rfl
    refine ⟨_, applyJob_two hc hl, ?_, ?_, ?_⟩
    · show countKey HpcJobAttribute
        (setAttr (setAttr m.Attributes HpcJobAttribute ((goSplitSpace j).getD 0 ""))
          HpcUserAttribute ((goSplitSpace j).getD 1 "")) = 1
      rw [h1, setAttr_of_lookup_none h2, countKey_append, countKey_append,
        countKey_zero_of_lookup_none ha]
      rfl
    · constructor
      · intro hf
        rw [hc] at hf
        cases hf
      · intro _
        show List.lookup HpcJobAttribute
            (setAttr (setAttr m.Attributes HpcJobAttribute ((goSplitSpace j).getD 0 ""))
              HpcUserAttribute ((goSplitSpace j).getD 1 "")) =
            some ((goSplitSpace j).getD 0 "") ∧
          List.lookup HpcUserAttribute
            (setAttr (setAttr m.Attributes HpcJobAttribute ((goSplitSpace j).getD 0 ""))
              HpcUserAttribute ((goSplitSpace j).getD 1 "")) =
            some ((goSplitSpace j).getD 1 "")
        rw [h1, setAttr_of_lookup_none h2, List.append_assoc]
        constructor
        · rw [lookup_append_of_lookup_none ha]
          rfl
        · rw [lookup_append_of_lookup_none hb]
          rfl
    · show List.lookup HpcJobAttribute
        (setAttr (setAttr m.Attributes HpcJobAttribute ((goSplitSpace j).getD 0 ""))
          HpcUserAttribute ((goSplitSpace j).getD 1 "")) ≠ none
      rw [h1, setAttr_of_lookup_none h2, List.append_assoc,
        lookup_append_of_lookup_none ha]
      intro hcontra
      cases hcontra
  · have hcF : goContainsChar j ' ' = false := by
      rcases hv : goContainsChar j ' ' with _ | _
      · rfl
      · exact absurd hv hc
    refine ⟨_, applyJob_one hcF, ?_, ?_, ?_⟩
    · show countKey HpcJobAttribute (setAttr m.Attributes HpcJobAttribute j) = 1
      rw [setAttr_of_lookup_none ha, countKey_append, countKey_zero_of_lookup_none ha]
      rfl
    · constructor
      · intro _
        show List.lookup HpcJobAttribute (setAttr m.Attributes HpcJobAttribute j) = some j ∧
          List.lookup HpcUserAttribute (setAttr m.Attributes HpcJobAttribute j) = none
        rw [setAttr_of_lookup_none ha]
        constructor
        · rw [lookup_append_of_lookup_none ha]
          rfl
        · rw [lookup_append_of_lookup_none hb]
          rfl
      · intro hf
        rw [hcF] at hf
        cases hf
    · show List.lookup HpcJobAttribute (setAttr m.Attributes HpcJobAttribute j) ≠ none
      rw [setAttr_of_lookup_none ha, lookup_append_of_lookup_none ha]
      intro hcontra
      cases hcontra

theorem fanout_all {m : Metric}
    (ha : m.Attributes.lookup HpcJobAttribute = none)
    (hb : m.Attributes.lookup HpcUserAttribute = none) :
    ∀ js : List String,
      (∀ j ∈ js, goContainsChar j ' ' = true → (goSplitSpace j).length = 2) →
      (js.filterMap (applyJob m)).length = js.length ∧
      (∀ out ∈ js.filterMap (applyJob m),
        countKey HpcJobAttribute out.Attributes = 1 ∧
        out.Attributes.lookup HpcJobAttribute ≠ none) ∧
      List.Forall₂ jobRecordSpec js (js.filterMap (applyJob m)) := by
  intro js
  induction js with
  | nil =>
    intro _
    refine ⟨rfl, ?_, List.Forall₂.nil⟩
    intro out hout
    cases hout
  | cons j t ih =>
    intro hwf
    obtain ⟨out, hout, hcnt, hspec, hne⟩ :=
      applyJob_spec ha hb (hwf j (List.mem_cons_self j t))
    obtain ⟨ihl, ihm, ihf⟩ := ih (fun x hx hc => hwf x (List.mem_cons_of_mem j hx) hc)
    rw [List.filterMap_cons, hout]
    refine ⟨?_, ?_, ?_⟩
    · simp only [List.length_cons, ihl]
    · intro o ho
      rcases List.mem_cons.1 ho with rfl | ho2
      · exact ⟨hcnt, hne⟩
      · exact ihm o ho2
    · exact List.Forall₂.cons hspec ihf

theorem processMetric_jobs {jobMap : List (String × List String)} {sysInfo : Provider}
    {cache : List (String × String)} {metric : Metric} {js : List String}
    (hmig : metric.MigProfile = "")
    (hcache : cache.lookup metric.GPU = none)
    (hjobs : (match jobMap.lookup metric.GPUUUID with
              | some l => some l
              | none => jobMap.lookup metric.GPU) = some js)
    (hne : js ≠ []) :
    processMetric jobMap sysInfo cache metric
      = some (cache ++ [(metric.GPU, metric.GPUUUID)],
          js.filterMap (applyJob (enrichNonMig metric))) := by
  have hdk : deviceKey metric = metric.GPU := by
    unfold deviceKey
    rw [hmig]
    simp
  have hlk : (cache ++ [(metric.GPU, metric.GPUUUID)]).lookup metric.GPU = some metric.GPUUUID := by
    rw [lookup_append_of_lookup_none hcache]
    simp [List.lookup]
  have hie : js.isEmpty = false := by
    cases js with
    | nil => exact absurd rfl hne
    | cons a t => rfl
  simp [processMetric, enrichNonMig, hdk, hcache, hmig, hlk, hjobs, hie]

/-! ### Claim theorems -/

/-- C2: fan-out is exact.  For a non-partitioned sample whose device key is
fresh in the pass cache and maps (by UUID first, bare key second) to a
nonempty list js of well-formed job records, the per-sample step of the
Enrichment Stage produces exactly the samples js.filterMap (applyJob ...) of
the enriched copy: their number equals the number of job records, each output
carries exactly one job-attribute binding, each output satisfies
jobRecordSpec for its record (job id attached, user id attached exactly when
the record has two tokens), and the original sample itself is not among the
outputs.  Structural independence of the copies holds by construction in the
pure value model, which represents the deep copy as a value copy. -/
theorem hpc_fanout_exact
    (jobMap : List (String × List String)) (sysInfo : Provider)
    (cache : List (String × String)) (metric : Metric) (js : List String)
    (hmig : metric.MigProfile = "")
    (hcache : cache.lookup metric.GPU = none)
    (hjobs : (match jobMap.lookup metric.GPUUUID with
              | some l => some l
              | none => jobMap.lookup metric.GPU) = some js)
    (hne : js ≠ [])
    (hwf : ∀ j ∈ js, goContainsChar j ' ' = true → (goSplitSpace j).length = 2)
    (ha : metric.Attributes.lookup HpcJobAttribute = none)
    (hb : metric.Attributes.lookup HpcUserAttribute = none) :
    processMetric jobMap sysInfo cache metric
      = some (cache ++ [(metric.GPU, metric.GPUUUID)],
          js.filterMap (applyJob (enrichNonMig metric))) ∧
    (js.filterMap (applyJob (enrichNonMig metric))).length = js.length ∧
    (∀ out ∈ js.filterMap (applyJob (enrichNonMig metric)),
      countKey HpcJobAttribute out.Attributes = 1) ∧
    List.Forall₂ jobRecordSpec js (js.filterMap (applyJob (enrichNonMig metric))) ∧
    metric ∉ js.filterMap (applyJob (enrichNonMig metric)) := by
  have ha2 : (enrichNonMig metric).Attributes.lookup HpcJobAttribute = none := ha
  have hb2 : (enrichNonMig metric).Attributes.lookup HpcUserAttribute = none := hb
  obtain ⟨hlen, hmem, hf2⟩ := fanout_all ha2 hb2 js hwf
  refine ⟨processMetric_jobs hmig hcache hjobs hne, hlen, ?_, hf2, ?_⟩
  · intro out hout
    exact (hmem out hout).1
  · intro hin
    exact (hmem metric hin).2 ha

/-- Witness for C2 at a concrete input: one sample on GPU 0 with device UUID
GPU-u and two job records, one with a user id and one without, fans out into
exactly two samples. -/
theorem hpc_fanout_exact_witness :
    processMetric [("GPU-u", ["7 8", "9"])] exProvider [] { exMetric with GPUUUID := "GPU-u" }
      = some ([("0", "GPU-u")],
          (["7 8", "9"] : List String).filterMap
            (applyJob (enrichNonMig { exMetric with GPUUUID := "GPU-u" }))) ∧
    ((["7 8", "9"] : List String).filterMap
      (applyJob (enrichNonMig { exMetric with GPUUUID := "GPU-u" }))).length = 2 := by
  have h := hpc_fanout_exact [("GPU-u", ["7 8", "9"])] exProvider []
    { exMetric with GPUUUID := "GPU-u" } ["7 8", "9"]
    rfl rfl rfl (by decide) (by decide) rfl rfl
  exact ⟨h.1, h.2.1⟩

/-- C5: scaling is type-preserving and follows exactly the three-way
algorithm of hpc.go lines 90-100: multiplier 1 copies the primary value
verbatim; otherwise a value containing a decimal point is parsed as a float,
multiplied and re-serialized as a float string, and a value without one is
parsed as an integer, multiplied (with Go 64-bit wrap-around) and
re-serialized as an integer string into which no decimal point is ever
introduced. -/
theorem scaleValue_algorithm (mult : Int) (v : String) :
    (mult = 1 → scaleValue mult v = v) ∧
    (mult ≠ 1 → goContainsChar v '.' = true →
      scaleValue mult v = goFormatFloat (goParseFloat v * (mult : ℚ))) ∧
    (mult ≠ 1 → goContainsChar v '.' = false →
      scaleValue mult v = goSprintfD (wrap64 (goAtoi v * mult)) ∧
      goContainsChar (scaleValue mult v) '.' = false) := by
  refine ⟨?_, ?_, ?_⟩
  · intro h
    simp [scaleValue, h]
  · intro h1 h2
    simp [scaleValue, h1, h2]
  · intro h1 h2
    have he : scaleValue mult v = goSprintfD (wrap64 (goAtoi v * mult)) := by
      simp [scaleValue, h1, h2]
    exact ⟨he, he ▸ goSprintfD_no_dot _⟩

/-- Witness for C5: multiplier 1 copies 1.5 verbatim, and multiplier 2 on the
integer-formatted value 21 yields the integer string 42 with no decimal
point. -/
theorem scaleValue_algorithm_witness :
    scaleValue 1 "1.5" = "1.5" ∧
    scaleValue 2 "21" = goSprintfD (wrap64 (goAtoi "21" * 2)) ∧
    goContainsChar (scaleValue 2 "21") '.' = false ∧
    scaleValue 2 "21" = "42" := by
  have h1 := (scaleValue_algorithm 1 "1.5").1 rfl
  have h3 := (scaleValue_algorithm 2 "21").2.2 (by decide) (by decide)
  exact ⟨h1, h3.1, h3.2, by decide⟩

/-- C10 counterexample: the primary value 2^63 contains no decimal point and
is rejected by strconv.Atoi (out of the int64 range), yet the alternate value
with multiplier 2 is the clamped-and-wrapped string -2, not the string 0 the
claim predicts for every parse failure. -/
theorem scale_overflow_counterexample :
    goContainsChar "9223372036854775808" '.' = false ∧
    maxI64 < 9223372036854775808 ∧
    scaleValue 2 "9223372036854775808" = "-2" ∧
    scaleValue 2 "9223372036854775808" ≠ "0" := by decide

/-- C10 amended: with a multiplier other than 1 and a primary value without a
decimal point, the alternate value is always the %d rendering of the wrapped
product of the Atoi result; when the value is syntactically invalid (empty or
not sign-plus-digits), the ignored parse error leaves zero and the alternate
value is exactly the string 0, whereas syntactically valid but out-of-range
values are clamped to the int64 boundary and multiplied. -/
theorem scale_int_parse_amended (mult : Int) (v : String)
    (h1 : mult ≠ 1) (h2 : goContainsChar v '.' = false) :
    scaleValue mult v = goSprintfD (wrap64 (goAtoi v * mult)) ∧
    (goAtoiSyntax v = none → scaleValue mult v = "0") := by
  have he : scaleValue mult v = goSprintfD (wrap64 (goAtoi v * mult)) := by
    simp [scaleValue, h1, h2]
  refine ⟨he, ?_⟩
  intro h3
  have hz : goAtoi v = 0 := by
    unfold goAtoi
    rw [h3]
  rw [he, hz, zero_mul]
  decide

/-- Witness for C10 amended: the non-numeric value abc with multiplier 2
yields the alternate value 0. -/
theorem scale_int_parse_amended_witness :
    scaleValue 2 "abc" = goSprintfD (wrap64 (goAtoi "abc" * 2)) ∧
    scaleValue 2 "abc" = "0" := by
  have h := scale_int_parse_amended 2 "abc" (by decide) (by decide)
  exact ⟨h.1, h.2 (by decide)⟩

/-- C3 (code bug): a sample whose job list holds only a malformed record
(three space-separated tokens) is dropped entirely by hpcMapper.Process
instead of being passed through: one input sample, zero output samples for
its counter.  The fan-out loop skips the bad record with continue, and the
pass-through branch is never reached because the list was nonempty. -/
theorem hpc_malformed_only_drops_sample :
    hpcProcess (.present [("0", FileEntry.regular (.lines ["a b c"]))]) exProvider
      [(exCounter, [exMetric])]
      = .done none [(exCounter, [])] := by decide

/-- C7 counterexample: the job line with a tab between its two tokens is a
whitespace-separated pair, yet the code (which splits on single spaces only)
attaches the whole line as the job id and sets no user attribute. -/
theorem jobline_tab_counterexample :
    hpcProcess (.present [("0", FileEntry.regular (.lines ["a\tb"]))]) exProvider
      [(exCounter, [exMetric])]
      = .done none [(exCounter, [{ exMetric with AlterValue := "139", AlterUUID := "GPU-abc", Attributes := [("jobid", "a\tb")] }])] ∧
    ([("jobid", "a\tb")] : List (String × String)).lookup HpcUserAttribute = none := by decide

/-- C7 amended: job record parsing splits on single space characters, not on
general whitespace: a line without a space sets only the job attribute to the
whole line; a line splitting on spaces into exactly two fields sets the job
and user attributes to those fields; a line splitting into more than two
fields is rejected and contributes no output sample, while the records
before and after it in the same file are still applied. -/
theorem jobline_parsing_space_semantics (m : Metric) (job : String)
    (pre post : List String) :
    (goContainsChar job ' ' = false →
      applyJob m job = some { m with Attributes := setAttr m.Attributes HpcJobAttribute job }) ∧
    (goContainsChar job ' ' = true → (goSplitSpace job).length = 2 →
      applyJob m job = some { m with Attributes := setAttr (setAttr m.Attributes HpcJobAttribute ((goSplitSpace job).getD 0 "")) HpcUserAttribute ((goSplitSpace job).getD 1 "") }) ∧
    (2 < (goSplitSpace job).length →
      applyJob m job = none ∧
      (pre ++ job :: post).filterMap (applyJob m)
        = pre.filterMap (applyJob m) ++ post.filterMap (applyJob m)) := by
  refine ⟨fun hc => applyJob_one hc, fun hc hl => applyJob_two hc hl, ?_⟩
  intro hgt
  have hcs : goContainsChar job ' ' = true := by
    rcases hv : goContainsChar job ' ' with _ | _
    · rw [goSplitSpace_of_not_contains hv] at hgt
      simp at hgt
    · rfl
  have hne2 : (goSplitSpace job).length ≠ 2 := by omega
  have hnone : applyJob m job = none := by
    simp [applyJob, hcs, hne2]
  refine ⟨hnone, ?_⟩
  rw [List.filterMap_append, List.filterMap_cons, hnone]

/-- Witness for C7 amended: the three-token record is rejected while the
records around it are still applied. -/
theorem jobline_parsing_space_semantics_witness :
    applyJob exMetric "a b c" = none ∧
    ((["x"] ++ "a b c" :: ["ok 5"]).filterMap (applyJob exMetric)
      = (["x"] : List String).filterMap (applyJob exMetric)
        ++ (["ok 5"] : List String).filterMap (applyJob exMetric)) :=
  (jobline_parsing_space_semantics exMetric "a b c" ["x"] ["ok 5"]).2.2 (by decide)

/-- C8 counterexample: with a valid device index 0 below the device count,
the partition instance id x matches no known partition (it is not even
numeric), yet FindMIGUUID halts fatally instead of returning the empty
string. -/
theorem findmig_nonnumeric_instance_counterexample :
    goParseUint32 "0" = some 0 ∧
    0 < exProvider.GPUCount ∧
    FindMIGUUID exProvider "0" "x" = .fatal := by decide

/-- C8 amended: for a valid device index below the device count, an instance
id that parses as a 32-bit unsigned integer but matches no known partition
yields the empty string without halting; an unparsable device index, or one
at least the device count, halts fatally (and so does an unparsable instance
id, which is why the claim needed amending). -/
theorem findmig_contract_amended (sysInfo : Provider) (gpu instanceId : String) :
    (∀ g, goParseUint32 gpu = some g → g < sysInfo.GPUCount →
      ∀ mi, goParseUint32 instanceId = some mi →
        (sysInfo.GPUs.getD g default).GPUInstances.find?
          (fun gi => gi.NvmlInstanceId == mi) = none →
        FindMIGUUID sysInfo gpu instanceId = .ok "") ∧
    (goParseUint32 gpu = none → FindMIGUUID sysInfo gpu instanceId = .fatal) ∧
    (∀ g, goParseUint32 gpu = some g → sysInfo.GPUCount ≤ g →
      FindMIGUUID sysInfo gpu instanceId = .fatal) := by
  refine ⟨?_, ?_, ?_⟩
  · intro g hg hlt mi hmi hfind
    simp only [List.getD_eq_getElem?_getD] at hfind
    simp [FindMIGUUID, hg, Nat.not_le.mpr hlt, hmi, hfind]
  · intro hg
    simp [FindMIGUUID, hg]
  · intro g hg hle
    simp [FindMIGUUID, hg, hle]

/-- Witness for C8 amended: instance id 5 is numeric and matches no partition
of GPU 0, so the resolver returns the empty string without halting. -/
theorem findmig_contract_amended_witness :
    FindMIGUUID exProvider "0" "5" = .ok "" :=
  (findmig_contract_amended exProvider "0" "5").1 0 (by decide) (by decide) 5
    (by decide) (by decide)

/-- C9: atomic skip on I/O errors.  A directory listing failure, or a read
error on any individual mapping file (which makes the file-reading loop
return that error before the metrics loop starts), makes Process return the
error with the sample set completely unmodified: no alternate values, no
fan-out, no attributes. -/
theorem hpc_io_error_atomic (sysInfo : Provider) (metrics : SampleSet) (e : String)
    (entries : List (String × FileEntry))
    (hread : buildJobMap (getGPUFiles entries) [] = .error e) :
    hpcProcess (.listError e) sysInfo metrics = .done (some e) metrics ∧
    hpcProcess (.present entries) sysInfo metrics = .done (some e) metrics := by
  refine ⟨rfl, ?_⟩
  simp [hpcProcess, hread]

/-- Witness for C9: a directory with one readable file and one file whose
read fails with boom returns boom and leaves the sample set untouched. -/
theorem hpc_io_error_atomic_witness :
    hpcProcess
      (.present [("0", FileEntry.regular (.lines ["1"])),
                 ("1", FileEntry.regular (.readError "boom"))])
      exProvider [(exCounter, [exMetric])]
      = .done (some "boom") [(exCounter, [exMetric])] :=
  (hpc_io_error_atomic exProvider [(exCounter, [exMetric])] "boom"
    [("0", FileEntry.regular (.lines ["1"])), ("1", FileEntry.regular (.readError "boom"))]
    rfl).2

/-- C6 counterexample: rendering the single standalone-device sample does not
produce the claimed text byte-identically, because the GPU template emits a
trailing newline and RenderGroup always appends the two synthesized
compatibility-gauge headers afterwards. -/
theorem render_roundtrip_counterexample :
    renderGroupGPU [(exCounter, [{ exMetric with AlterUUID := "GPU-abc" }])]
      ≠ "# HELP X help\n# TYPE X gauge\nX\x7bgpu=\"0\",UUID=\"GPU-abc\",pci_bus_id=\"\",device=\"\",modelName=\"\"\x7d 139" := by decide

/-- C6 amended: rendering the single standalone-device sample (device key 0,
uuid GPU-abc, value 139, counter X with no alternate and no partition
fields) produces exactly the claimed HELP, TYPE and sample lines, followed by
a trailing newline and the two always-present compatibility-gauge header
blocks of RenderSlurm; the uuid label value is the sample's alternate
identifier, which the Enrichment Stage sets to the device UUID. -/
theorem render_roundtrip_amended :
    renderGroupGPU [(exCounter, [{ exMetric with AlterUUID := "GPU-abc" }])]
      = "# HELP X help\n# TYPE X gauge\nX\x7bgpu=\"0\",UUID=\"GPU-abc\",pci_bus_id=\"\",device=\"\",modelName=\"\"\x7d 139\n"
        ++ slurmJobHeader ++ slurmUserHeader := by decide

/-- C1 (code bug): the substring-containment de-duplication of RenderSlurm
suppresses a legitimate distinct triple.  The two samples have different
device identities and both carry nonempty job ids, and the props text of the
second is a substring of the first's; after the first line is emitted, the
containment test over the accumulating buffer wrongly skips the second
sample, so job id 9 never appears in the output while job id 7 does. -/
theorem renderSlurm_substring_suppression :
    mSlurmA.GPU ≠ mSlurmB.GPU ∧
    mSlurmB.Attributes.lookup HpcJobAttribute = some "9" ∧
    goStringContains (slurmProps mSlurmA) (slurmProps mSlurmB) = true ∧
    goStringContains (renderSlurm [(exCounter, [mSlurmA, mSlurmB])]) "jobid=\"7\"" = true ∧
    goStringContains (renderSlurm [(exCounter, [mSlurmA, mSlurmB])]) "jobid=\"9\"" = false := by
  decide

theorem processMetric_emptyMap (sysInfo : Provider) (cache : List (String × String))
    (m : Metric) (hm : m.MigProfile = "") :
    ∃ cache2 m1, processMetric [] sysInfo cache m = some (cache2, [m1]) ∧
      stripAlter m1 = stripAlter m := by
  have hdk : deviceKey m = m.GPU := by
    unfold deviceKey
    rw [hm]
    simp
  rcases hcl : cache.lookup m.GPU with _ | u
  · refine ⟨cache ++ [(m.GPU, m.GPUUUID)],
      { m with AlterValue := scaleValue m.Counter.Multiplier m.Value, AlterUUID := m.GPUUUID },
      ?_, rfl⟩
    have hlk : (cache ++ [(m.GPU, m.GPUUUID)]).lookup m.GPU = some m.GPUUUID := by
      rw [lookup_append_of_lookup_none hcl]
      simp [List.lookup]
    simp [processMetric, hdk, hm, hcl, hlk]
  · refine ⟨cache,
      { m with AlterValue := scaleValue m.Counter.Multiplier m.Value, AlterUUID := u },
      ?_, rfl⟩
    simp [processMetric, hdk, hm, hcl]

theorem processMetrics_emptyMap (sysInfo : Provider) :
    ∀ (ms : List Metric) (cache : List (String × String)),
      (∀ m ∈ ms, m.MigProfile = "") →
      ∃ cache2 out, processMetrics [] sysInfo cache ms = some (cache2, out) ∧
        out.map stripAlter = ms.map stripAlter := by
  intro ms
  induction ms with
  | nil =>
    intro cache _
    exact ⟨cache, [], rfl, rfl⟩
  | cons m t ih =>
    intro cache hall
    obtain ⟨c2, m1, hm1, hs⟩ :=
      processMetric_emptyMap sysInfo cache m (hall m (List.mem_cons_self m t))
    obtain ⟨c3, out, hout, hsout⟩ := ih c2 (fun x hx => hall x (List.mem_cons_of_mem m hx))
    refine ⟨c3, m1 :: out, ?_, ?_⟩
    · simp only [processMetrics, hm1, hout]
      rfl
    · simp only [List.map_cons, hs, hsout]

theorem processCounters_emptyMap (sysInfo : Provider) :
    ∀ (ss : List (Counter × List Metric)) (cache : List (String × String)),
      (∀ p ∈ ss, ∀ m ∈ p.2, m.MigProfile = "") →
      ∃ out, processCounters [] sysInfo cache ss = some out ∧
        stripSS out = stripSS ss := by
  intro ss
  induction ss with
  | nil =>
    intro cache _
    exact ⟨[], rfl, rfl⟩
  | cons p t ih =>
    intro cache hall
    obtain ⟨c2, ms1, hms1, hs⟩ :=
      processMetrics_emptyMap sysInfo p.2 cache (hall p (List.mem_cons_self p t))
    obtain ⟨out, hout, hsout⟩ := ih c2 (fun x hx => hall x (List.mem_cons_of_mem p hx))
    refine ⟨(p.1, ms1) :: out, ?_, ?_⟩
    · cases p with
      | mk c ms =>
        simp only [processCounters, hms1, hout]
    · simp only [stripSS, List.map_cons] at *
      rw [hsout]
      simp [hs]

/-- C4 counterexample: with one non-partitioned sample whose counter has
multiplier 2, running the pass with an absent mapping directory differs from
running it with an existing empty directory: the absent run returns the
sample set untouched (empty alternate value), while the empty run computes
alternate value 10 and copies the device UUID into the alternate
identifier. -/
theorem hpc_absent_empty_counterexample :
    hpcProcess .absent exProvider
      [({ exCounter with Multiplier := 2 }, [{ exMetric with Counter := { exCounter with Multiplier := 2 }, Value := "5" }])]
      ≠ hpcProcess (.present []) exProvider
        [({ exCounter with Multiplier := 2 }, [{ exMetric with Counter := { exCounter with Multiplier := 2 }, Value := "5" }])] := by
  decide

/-- C4 amended: an absent mapping directory makes Process return success with
the sample set completely untouched, while an existing directory with no
mapping files still runs the enrichment loop: every sample passes through
exactly once with no fan-out and no attributes added, and the two runs agree
on every sample up to the derived alternate value and alternate identifier
fields, which only the empty-directory run computes. -/
theorem hpc_absent_vs_empty_dir (sysInfo : Provider)
    (metrics : List (Counter × List Metric))
    (hnomig : ∀ p ∈ metrics, ∀ m ∈ p.2, m.MigProfile = "") :
    hpcProcess .absent sysInfo metrics = .done none metrics ∧
    ∃ out, hpcProcess (.present []) sysInfo metrics = .done none out ∧
      stripSS out = stripSS metrics := by
  refine ⟨rfl, ?_⟩
  obtain ⟨out, hout, hs⟩ := processCounters_emptyMap sysInfo metrics [] hnomig
  refine ⟨out, ?_, hs⟩
  simp [hpcProcess, getGPUFiles, buildJobMap, hout]

/-- Witness for C4 amended at the concrete multiplier-2 sample: the absent
run returns the input unchanged. -/
theorem hpc_absent_vs_empty_dir_witness :
    hpcProcess .absent exProvider
      [({ exCounter with Multiplier := 2 }, [{ exMetric with Counter := { exCounter with Multiplier := 2 }, Value := "5" }])]
      = .done none
        [({ exCounter with Multiplier := 2 }, [{ exMetric with Counter := { exCounter with Multiplier := 2 }, Value := "5" }])] :=
  (hpc_absent_vs_empty_dir exProvider
    [({ exCounter with Multiplier := 2 }, [{ exMetric with Counter := { exCounter with Multiplier := 2 }, Value := "5" }])]
    (by decide)).1
